import Mathlib

/-!
Shallow embedding of the `mapparse` crate (src/lib.rs): a stage-based parser
for MSVC linker MAP files, plus the export pass from the `export` test.

Strings are modelled as `List Char` (the inputs of interest are ASCII, so
Rust byte indices and char indices coincide).  Fallible Rust code
(`Result` + `?` via `anyhow::Context`) is modelled with `Except Err`.
Rust panics reachable in a debug/test build (slice-out-of-range, index
out of bounds, integer-subtraction overflow, `Option::unwrap` on `None`,
explicit `panic!`) are modelled as distinct `Err` constructors, so that
"this panic is unreachable" claims can be stated as theorems.
-/

deriving instance DecidableEq for Except

namespace Mapparse

/-- Error outcomes of `MapFile::load` and its helpers.  The `no*`/`bad*`
constructors correspond to the `anyhow` context messages in the source;
the `*Panic` constructors model Rust panics in a debug build. -/
inductive Err where
  | noTimestamp        -- "there was no timestamp on line 3"
  | noLoadAddrStmt     -- "there was no preferred load address statement on line 5"
  | badLoadAddr        -- "unable to get preferred load address from line 5"
  | badSegment         -- "unable to parse segment"
  | badAddress         -- "unable to parse address"
  | badLength          -- "unable to parse length"
  | badRva             -- "unable to parse rva"
  | noAddressField     -- "no address was found"
  | noLengthField      -- "no length was found"
  | noSymbolField      -- "no symbol was found"
  | noClassField       -- "no class was found"
  | noRvaField         -- "no rva was found"
  | noLibObjField      -- "no libobj was found"
  | noFilename         -- "filename not found"
  | noEntrypoint       -- "entrypoint not found"
  | noLoadAddress      -- "preferred load address not found"
  | noTimestampFinal   -- "timestamp not found"
  | classPanic         -- panic!("unrecognized section class ...")
  | indexPanic         -- addrstr[1] / libobjstr[0..1] index out of bounds
  | slicePanic         -- &data[a..b] with a > b
  | subPanic           -- integer subtraction overflow (debug build)
  | loadAddrPanic      -- load_address.unwrap() on None
  deriving DecidableEq

/-- Rust `Rva(usize)`. -/
structure Rva where
  val : Nat
  deriving DecidableEq

/-- Rust `Address { seg: u16, addr: usize }`; `seg` is bounded at parse time. -/
structure Address where
  seg : Nat
  addr : Nat
  deriving DecidableEq

/-- Rust `enum Class { Code, Data }`. -/
inductive Class where
  | code
  | data
  deriving DecidableEq

/-- Rust `struct Section`.  (`class` is a Lean keyword, hence `cls`.) -/
structure Section where
  name : List Char
  cls : Class
  addr : Address
  len : Nat
  deriving DecidableEq

/-- Rust `enum LibObject<'a>`. -/
inductive LibObject where
  | libObj (lib : Option (List Char)) (obj : List Char)
  | absolute
  deriving DecidableEq

/-- Rust `struct Function`. -/
structure Function where
  symbol : List Char
  addr : Address
  rva : Rva
  flags : List (List Char)
  libobj : LibObject
  deriving DecidableEq

/-- Rust `struct StaticSymbol` (same shape as `Function`). -/
structure StaticSymbol where
  symbol : List Char
  addr : Address
  rva : Rva
  flags : List (List Char)
  libobj : LibObject
  deriving DecidableEq

/-- Rust `struct MapFile`. -/
structure MapFile where
  file_name : List Char
  entrypoint : Address
  preferred_load_addr : Nat
  timestamp : List Char
  sections : List Section
  functions : List Function
  static_symbols : List StaticSymbol
  deriving DecidableEq

/-! ## String primitives (Rust `str` methods on `List Char`) -/

/-- Rust `str::split(c)`: splits at every occurrence of `c`, keeping empty
pieces; the result is always non-empty. -/
def splitCh (c : Char) : List Char → List (List Char)
  | [] => [[]]
  | x :: xs =>
    if x = c then [] :: splitCh c xs
    else
      match splitCh c xs with
      | [] => [[x]]
      | l :: ls => (x :: l) :: ls

/-- Rust `str::split("\r\n")`: splits at every (leftmost, non-overlapping)
occurrence of the two-character CRLF sequence. -/
def splitCRLF : List Char → List (List Char)
  | [] => [[]]
  | '\r' :: '\n' :: rest => [] :: splitCRLF rest
  | x :: xs =>
    match splitCRLF xs with
    | [] => [[x]]
    | l :: ls => (x :: l) :: ls

/-- Whether the CRLF sequence occurs in the list. -/
def containsCRLF : List Char → Bool
  | [] => false
  | '\r' :: '\n' :: _ => true
  | _ :: xs => containsCRLF xs

/-- Whether `needle` is a leading segment of `hay`. -/
def startsWithL : List Char → List Char → Bool
  | [], _ => true
  | _ :: _, [] => false
  | a :: as, b :: bs => a = b && startsWithL as bs

/-- Rust `str::contains(&str)`: substring containment. -/
def containsSub (needle : List Char) : List Char → Bool
  | [] => needle.isEmpty
  | x :: xs => startsWithL needle (x :: xs) || containsSub needle xs

/-- Rust `str::find(char)`: index of the first occurrence. -/
def findCh (c : Char) : List Char → Option Nat
  | [] => none
  | x :: xs => if x = c then some 0 else (findCh c xs).map (· + 1)

/-- Rust `str::find(&str)`: index of the first occurrence of a substring. -/
def findSub (needle : List Char) : List Char → Option Nat
  | [] => if needle.isEmpty then some 0 else none
  | x :: xs =>
    if startsWithL needle (x :: xs) then some 0
    else (findSub needle xs).map (· + 1)

/-- Rust `str::trim` (ASCII whitespace; the inputs of interest are ASCII). -/
def trimL (l : List Char) : List Char :=
  ((l.dropWhile Char.isWhitespace).reverse.dropWhile Char.isWhitespace).reverse

/-- Value of a hexadecimal digit character. -/
def hexVal? (c : Char) : Option Nat :=
  if c.isDigit then some (c.toNat - '0'.toNat)
  else if 'a' ≤ c ∧ c ≤ 'f' then some (c.toNat - 'a'.toNat + 10)
  else if 'A' ≤ c ∧ c ≤ 'F' then some (c.toNat - 'A'.toNat + 10)
  else none

/-- Rust `usize::from_str_radix(s, 16)`: optional leading `+`, at least one
hex digit, value must fit in 64 bits (usize on the source's target). -/
def parseHex (s : List Char) : Option Nat :=
  let ds := match s with
    | '+' :: r => r
    | _ => s
  if ds.isEmpty then none
  else
    (ds.foldl (fun acc c => acc.bind fun a => (hexVal? c).map fun d => a * 16 + d)
        (some 0)).bind
      fun v => if v < 2 ^ 64 then some v else none

/-- Rust `str::parse::<u16>()`: optional leading `+`, at least one decimal
digit, value at most 65535. -/
def parseU16 (s : List Char) : Option Nat :=
  let ds := match s with
    | '+' :: r => r
    | _ => s
  if ds.isEmpty then none
  else if ds.all Char.isDigit then
    let v := ds.foldl (fun a c => a * 10 + (c.toNat - '0'.toNat)) 0
    if v ≤ 65535 then some v else none
  else none

/-- `anyhow::Context::context`: turn an `Option` into an `Except` with a
named error. -/
def orErr {α : Type} (o : Option α) (e : Err) : Except Err α :=
  match o with
  | some a => .ok a
  | none => .error e

/-! ## Sentinel strings -/

def pubsByValue : List Char := "Publics by Value".data

def entryPointAt : List Char := "entry point at".data

def absMarker : List Char := "<absolute>".data

/-- The "hacky way to know we are on an actual data line": the line contains
the character `'0'` (`data.contains('0')` in the source). -/
def isDataLine (l : List Char) : Bool := l.contains '0'

/-! ## Section-line tokenizer (`Stage::Sections` body) -/

/-- Rust local `enum SectionStage`. -/
inductive SectionStage where
  | address
  | length
  | symbol
  | cls
  deriving DecidableEq

/-- The mutable accumulators of the section-line loop. -/
structure SecAcc where
  sstage : SectionStage := .address
  address : Option Address := none
  length : Option Nat := none
  symbol : Option (List Char) := none
  cls : Option Class := none
  deriving DecidableEq

/-- One (non-empty) token of a Sections data line.  In the `Address` stage
`addrstr[1]` is an index panic when the token has no `:`; in the `Class`
stage an unrecognized literal is `panic!`.  Note the `Class` stage never
advances, mirroring the source. -/
def stepSecTok (acc : SecAcc) (tok : List Char) : Except Err SecAcc :=
  match acc.sstage with
  | .address =>
    match splitCh ':' tok with
    | [] => .error .indexPanic
    | [_] => .error .indexPanic
    | seg :: addr :: _ =>
      match parseU16 seg with
      | none => .error .badSegment
      | some s =>
        match parseHex addr with
        | none => .error .badAddress
        | some a => .ok { acc with address := some ⟨s, a⟩, sstage := .length }
  | .length =>
    match parseHex tok.dropLast with
    | none => .error .badLength
    | some v => .ok { acc with length := some v, sstage := .symbol }
  | .symbol => .ok { acc with symbol := some tok, sstage := .cls }
  | .cls =>
    if tok = "CODE".data then .ok { acc with cls := some .code }
    else if tok = "DATA".data then .ok { acc with cls := some .data }
    else .error .classPanic

/-- The section-line token loop (`for substring in data.split(' ')` with the
`is_empty` skip). -/
def foldSecToks : SecAcc → List (List Char) → Except Err SecAcc
  | acc, [] => .ok acc
  | acc, t :: ts =>
    if t.isEmpty then foldSecToks acc ts
    else
      match stepSecTok acc t with
      | .error e => .error e
      | .ok acc2 => foldSecToks acc2 ts

/-- Parse one Sections data line into a `Section` (token loop followed by the
`sections.push(Section { .. })` field assembly, in source order). -/
def parseSecLine (line : List Char) : Except Err Section :=
  match foldSecToks {} (splitCh ' ' line) with
  | .error e => .error e
  | .ok acc =>
    match acc.address with
    | none => .error .noAddressField
    | some a =>
      match acc.length with
      | none => .error .noLengthField
      | some len =>
        match acc.symbol with
        | none => .error .noSymbolField
        | some name =>
          match acc.cls with
          | none => .error .noClassField
          | some c => .ok { name := name, cls := c, addr := a, len := len }

/-! ## Function/StaticSymbol-line tokenizer (shared between both stages) -/

/-- Rust local `enum FunctionStage`. -/
inductive FunctionStage where
  | address
  | symbol
  | rva
  | libObj
  deriving DecidableEq

/-- The mutable accumulators of the function-line loop. -/
structure FnAcc where
  fstage : FunctionStage := .address
  address : Option Address := none
  symbol : Option (List Char) := none
  rva : Option Rva := none
  flags : List (List Char) := []
  libobj : Option LibObject := none
  deriving DecidableEq

/-- The RVA computation at `FunctionStage::Rva`:
`if rva_with_base == 0 { 0 } else { rva_with_base - load_address.unwrap() }`.
`unwrap` on `None` panics; in a debug build the subtraction panics on
underflow. -/
def rvaValue (loadAddress : Option Nat) (rvaWithBase : Nat) : Except Err Nat :=
  if rvaWithBase = 0 then .ok 0
  else
    match loadAddress with
    | none => .error .loadAddrPanic
    | some la => if rvaWithBase < la then .error .subPanic else .ok (rvaWithBase - la)

/-- One (non-empty) token of a Functions/StaticSymbols data line.  The
`LibObj` stage never advances, so every token past the RVA is classified
there: `<absolute>` marker, single-character flag, or `lib:object` split. -/
def stepFnTok (loadAddress : Option Nat) (acc : FnAcc) (tok : List Char) :
    Except Err FnAcc :=
  match acc.fstage with
  | .address =>
    match splitCh ':' tok with
    | [] => .error .indexPanic
    | [_] => .error .indexPanic
    | seg :: addr :: _ =>
      match parseU16 seg with
      | none => .error .badSegment
      | some s =>
        match parseHex addr with
        | none => .error .badAddress
        | some a => .ok { acc with address := some ⟨s, a⟩, fstage := .symbol }
  | .symbol => .ok { acc with symbol := some tok, fstage := .rva }
  | .rva =>
    match parseHex tok with
    | none => .error .badRva
    | some raw =>
      match rvaValue loadAddress raw with
      | .error e => .error e
      | .ok v => .ok { acc with rva := some ⟨v⟩, fstage := .libObj }
  | .libObj =>
    if containsSub absMarker tok then .ok { acc with libobj := some .absolute }
    else if tok.length = 1 then .ok { acc with flags := acc.flags ++ [tok] }
    else
      match splitCh ':' tok with
      | [] => .error .indexPanic
      | [p] => .ok { acc with libobj := some (.libObj none p) }
      | p0 :: p1 :: _ => .ok { acc with libobj := some (.libObj (some p0) p1) }

/-- The function-line token loop (with the `is_empty` skip). -/
def foldFnToks (loadAddress : Option Nat) : FnAcc → List (List Char) → Except Err FnAcc
  | acc, [] => .ok acc
  | acc, t :: ts =>
    if t.isEmpty then foldFnToks loadAddress acc ts
    else
      match stepFnTok loadAddress acc t with
      | .error e => .error e
      | .ok acc2 => foldFnToks loadAddress acc2 ts

/-- Parse one Functions/StaticSymbols data line into a `Function` (token loop
followed by the `push(Function { .. })` field assembly, in source order). -/
def parseFnLine (loadAddress : Option Nat) (line : List Char) : Except Err Function :=
  match foldFnToks loadAddress {} (splitCh ' ' line) with
  | .error e => .error e
  | .ok acc =>
    match acc.address with
    | none => .error .noAddressField
    | some a =>
      match acc.symbol with
      | none => .error .noSymbolField
      | some sym =>
        match acc.rva with
        | none => .error .noRvaField
        | some r =>
          match acc.libobj with
          | none => .error .noLibObjField
          | some lo =>
            .ok { symbol := sym, addr := a, rva := r, flags := acc.flags, libobj := lo }

/-! ## The stage-driven line scanner -/

/-- Rust local `enum Stage`. -/
inductive Stage where
  | header
  | sections
  | functions
  | staticSymbols
  deriving DecidableEq

/-- The scanner's mutable state: the current stage plus all accumulators of
`MapFile::load`. -/
structure St where
  stage : Stage := .header
  filename : Option (List Char) := none
  timestamp : Option (List Char) := none
  loadAddress : Option Nat := none
  entryPoint : Option Address := none
  sections : List Section := []
  functions : List Function := []
  staticSymbols : List StaticSymbol := []
  deriving DecidableEq

/-- Header line 3: `begin = data.find('(')?`, `end = data.find(')')?`,
`timestamp = &data[begin + 1..end - 1]`.  With `end = 0` the `end - 1`
underflows (debug panic); with `begin + 1 > end - 1` the slice panics. -/
def headerLine3 (st : St) (data : List Char) : Except Err St :=
  match findCh '(' data with
  | none => .error .noTimestamp
  | some b =>
    match findCh ')' data with
    | none => .error .noTimestamp
    | some e =>
      if e = 0 then .error .subPanic
      else if e - 1 < b + 1 then .error .slicePanic
      else .ok { st with timestamp := some ((data.take (e - 1)).drop (b + 1)) }

/-- Header line 5: hex-parse the text after the first occurrence of `"is "`. -/
def headerLine5 (st : St) (data : List Char) : Except Err St :=
  match findSub "is ".data data with
  | none => .error .noLoadAddrStmt
  | some i =>
    match parseHex (data.drop (i + 3)) with
    | none => .error .badLoadAddr
    | some v => .ok { st with loadAddress := some v }

/-- The entry-point scan on the `entry point at` line: every non-empty
space-token containing `'0'` is split on `:` and parsed as the entry
address (the last such token wins). -/
def foldEntryToks : Option Address → List (List Char) → Except Err (Option Address)
  | e, [] => .ok e
  | e, t :: ts =>
    if t.isEmpty then foldEntryToks e ts
    else if t.contains '0' then
      match splitCh ':' t with
      | [] => .error .indexPanic
      | [_] => .error .indexPanic
      | seg :: addr :: _ =>
        match parseU16 seg with
        | none => .error .badSegment
        | some s =>
          match parseHex addr with
          | none => .error .badAddress
          | some a => foldEntryToks (some ⟨s, a⟩) ts
    else foldEntryToks e ts

/-- Process one input line (1-based physical line number `n`), dispatching on
the current stage exactly as the `match stage` in `MapFile::load`. -/
def stepLine (st : St) (n : Nat) (data : List Char) : Except Err St :=
  match st.stage with
  | .header =>
    if n = 1 then .ok { st with filename := some (trimL data) }
    else if n = 3 then headerLine3 st data
    else if n = 5 then headerLine5 st data
    else if n = 7 then .ok { st with stage := .sections }
    else .ok st
  | .sections =>
    if containsSub pubsByValue data then .ok { st with stage := .functions }
    else if !isDataLine data then .ok st
    else
      match parseSecLine data with
      | .error e => .error e
      | .ok sec => .ok { st with sections := st.sections ++ [sec] }
  | .functions =>
    if containsSub entryPointAt data then
      match foldEntryToks st.entryPoint (splitCh ' ' data) with
      | .error e => .error e
      | .ok ep => .ok { st with stage := .staticSymbols, entryPoint := ep }
    else if !isDataLine data then .ok st
    else
      match parseFnLine st.loadAddress data with
      | .error e => .error e
      | .ok f => .ok { st with functions := st.functions ++ [f] }
  | .staticSymbols =>
    if !isDataLine data then .ok st
    else
      match parseFnLine st.loadAddress data with
      | .error e => .error e
      | .ok f =>
        .ok { st with staticSymbols := st.staticSymbols ++
          [{ symbol := f.symbol, addr := f.addr, rva := f.rva,
             flags := f.flags, libobj := f.libobj }] }

/-- The scanner loop: `for (line, data) in input.split("\r\n").enumerate()`
with 1-based line numbers. -/
def runLines : St → Nat → List (List Char) → Except Err St
  | st, _, [] => .ok st
  | st, n, l :: ls =>
    match stepLine st n l with
    | .error e => .error e
    | .ok st2 => runLines st2 (n + 1) ls

/-- `MapFile::load`: run the scanner over the CRLF-split input, then assemble
the `MapFile` (field contexts checked in source order: filename, entrypoint,
load address, timestamp). -/
def load (input : List Char) : Except Err MapFile :=
  match runLines {} 1 (splitCRLF input) with
  | .error e => .error e
  | .ok st =>
    match st.filename with
    | none => .error .noFilename
    | some fname =>
      match st.entryPoint with
      | none => .error .noEntrypoint
      | some ep =>
        match st.loadAddress with
        | none => .error .noLoadAddress
        | some la =>
          match st.timestamp with
          | none => .error .noTimestampFinal
          | some ts =>
            .ok { file_name := fname, entrypoint := ep, preferred_load_addr := la,
                  timestamp := ts, sections := st.sections,
                  functions := st.functions, static_symbols := st.staticSymbols }

/-! ## The export pass (from the `export` test) -/

/-- The allowed-character string of `fix_name_for_ida`, transcribed verbatim
from the source (note it stops at `y`). -/
def allowedIda : List Char :=
  "_$?@0123456789ABCDEFGHIJKLMNOPQRSTUVWXYZabcdefghijklmnopqrstuvwxy".data

/-- `fix_name_for_ida`: map every character not contained in `allowedIda`
to `'_'`. -/
def fix_name_for_ida (name : List Char) : List Char :=
  name.map fun x => if allowedIda.contains x then x else '_'

/-- One output line, `format!("{} {}\n", rva.0 + preferred_load_addr, name)`,
with the demangler collaborator modelled as a function `dem` returning
`none` on demangling failure (`unwrap_or` falls back to the raw symbol). -/
def exportLine (loadAddr : Nat) (dem : List Char → Option (List Char))
    (symbol : List Char) (r : Rva) : List Char :=
  (Nat.repr (r.val + loadAddr)).data ++ ' ' ::
    fix_name_for_ida ((dem symbol).getD symbol) ++ ['\n']

/-- The export pass: one line per function (in order), then one line per
static symbol (in order), accumulated by `push_str` onto `output`. -/
def runExport (map : MapFile) (dem : List Char → Option (List Char)) : List Char :=
  let out1 := map.functions.foldl
    (fun out f => out ++ exportLine map.preferred_load_addr dem f.symbol f.rva) []
  map.static_symbols.foldl
    (fun out s => out ++ exportLine map.preferred_load_addr dem s.symbol s.rva) out1

/-- A demangler that always fails (plain C names such as `_main` are not
MSVC-mangled, so `msvc_demangler::demangle` fails on them and the raw
symbol text is used). -/
def demNone : List Char → Option (List Char) := fun _ => none

/-! ## Statement vocabulary: spec-level descriptions used by the theorems -/

/-- The non-empty space-separated tokens of a line (the tokens the source's
per-line loops actually consume, after the `is_empty` skip). -/
def tokensNE (line : List Char) : List (List Char) :=
  (splitCh ' ' line).filter fun t => !t.isEmpty

/-- Tail-token shape test for a single-character flag: does not contain the
`<absolute>` marker and has length exactly 1. -/
def isFlagTok (t : List Char) : Bool :=
  !containsSub absMarker t && t.length == 1

/-- Shape classification of a non-flag tail token: `<absolute>` marker wins,
otherwise split on `:` into one part (`LibObj(None, part)`) or two or more
parts (`LibObj(Some(first), second)`, remainder ignored).  The `[]` branch
is unreachable (`splitCh` never returns the empty list). -/
def classifyLib (t : List Char) : LibObject :=
  if containsSub absMarker t then .absolute
  else
    match splitCh ':' t with
    | [p] => .libObj none p
    | p0 :: p1 :: _ => .libObj (some p0) p1
    | [] => .libObj none []

/-- The flags a tail-token list contributes, in input order. -/
def tailFlags (ts : List (List Char)) : List (List Char) :=
  ts.filter fun t => !t.isEmpty && isFlagTok t

/-- The provenance after processing a tail-token list: the last non-empty
non-flag token wins (classified by shape); absent one, the incoming value
is kept. -/
def tailLibObj (lo : Option LibObject) (ts : List (List Char)) : Option LibObject :=
  match (ts.filter fun t => !t.isEmpty && !isFlagTok t).getLast? with
  | none => lo
  | some t => some (classifyLib t)

/-- Modelled from the spec: the export pass's output described as the spec
words it — one line per function in original order, then one line per
static symbol in original order, concatenated.  Used only as the
refinement target for the order-preservation claim. -/
def exportOutputSpec (map : MapFile) (dem : List Char → Option (List Char)) :
    List Char :=
  ((map.functions.map fun f => exportLine map.preferred_load_addr dem f.symbol f.rva) ++
    (map.static_symbols.map fun s =>
      exportLine map.preferred_load_addr dem s.symbol s.rva)).flatten

/-- Whether `load` hits the `load_address.unwrap()` panic. -/
def hitsLoadAddrPanic (input : List Char) : Bool :=
  match load input with
  | .error .loadAddrPanic => true
  | _ => false

/-- The scanner-loop invariant, where `n` is the 1-based number of the next
line to process: while still in the `Header` stage, at most 6 lines have
been consumed, and once physical line 5 has been consumed (or any later
stage has been reached, which requires passing line 5 or erroring), the
preferred load address is set. -/
def stInv (st : St) (n : Nat) : Prop :=
  (st.stage = .header → n ≤ 7 ∧ (6 ≤ n → st.loadAddress.isSome)) ∧
  (st.stage ≠ .header → st.loadAddress.isSome = true)

/-! ## Concrete inputs -/

/-- The spec's worked example, with CRLF line endings: header lines on
physical lines 1/3/5, blank lines at 2/4/6, a blank line 7 (consumed by the
`Header → Sections` transition), then the Sections row, the
`Publics by Value` sentinel, the Functions row, the entry-point line and
the StaticSymbols row. -/
def exampleInput : String :=
  "foo.exe\r\n\r\nTimestamp is 5AAA0000 (Thu Jan 01 00:00:00 2018)\r\n\r\nPreferred load address is 10000000\r\n\r\n\r\n0001:00001000 00000100H .text CODE\r\nPublics by Value\r\n0001:00001000 _main 10001000 f libfoo:main.obj\r\nentry point at 0001:00001000\r\n0001:00002000 _helper 10002000 libfoo:helper.obj"

/-- The `MapFile` the worked example parses to.  (The stored timestamp is
the slice `&data[begin + 1..end - 1]`, which drops the character before
the closing parenthesis — hence `201`, not `2018`.) -/
def exampleMap : MapFile :=
  { file_name := "foo.exe".data
    entrypoint := ⟨1, 0x1000⟩
    preferred_load_addr := 0x10000000
    timestamp := "Thu Jan 01 00:00:00 201".data
    sections := [{ name := ".text".data, cls := .code, addr := ⟨1, 0x1000⟩, len := 0x100 }]
    functions := [{ symbol := "_main".data, addr := ⟨1, 0x1000⟩, rva := ⟨0x1000⟩,
                    flags := ["f".data],
                    libobj := .libObj (some "libfoo".data) "main.obj".data }]
    static_symbols := [{ symbol := "_helper".data, addr := ⟨1, 0x2000⟩, rva := ⟨0x2000⟩,
                         flags := [],
                         libobj := .libObj (some "libfoo".data) "helper.obj".data }] }

/-- The worked example re-joined with bare LF line endings instead of CRLF. -/
def exampleInputLF : String :=
  "foo.exe\n\nTimestamp is 5AAA0000 (Thu Jan 01 00:00:00 2018)\n\nPreferred load address is 10000000\n\n\n0001:00001000 00000100H .text CODE\nPublics by Value\n0001:00001000 _main 10001000 f libfoo:main.obj\nentry point at 0001:00001000\n0001:00002000 _helper 10002000 libfoo:helper.obj"

/-- The worked example with the Sections row's class token replaced by
`CONST` (neither `CODE` nor `DATA`). -/
def exampleBadClass : String :=
  "foo.exe\r\n\r\nTimestamp is 5AAA0000 (Thu Jan 01 00:00:00 2018)\r\n\r\nPreferred load address is 10000000\r\n\r\n\r\n0001:00001000 00000100H .rdata CONST\r\nPublics by Value\r\n0001:00001000 _main 10001000 f libfoo:main.obj\r\nentry point at 0001:00001000\r\n0001:00002000 _helper 10002000 libfoo:helper.obj"

/-- A scanner state sitting in the `Sections` stage. -/
def sectionsSt : St := { stage := .sections }

/-- A tiny `MapFile` used to instantiate export theorems. -/
def demoMap : MapFile :=
  { file_name := "a.exe".data
    entrypoint := ⟨1, 0⟩
    preferred_load_addr := 0x400000
    timestamp := "now".data
    sections := []
    functions := [{ symbol := "_f".data, addr := ⟨1, 0x10⟩, rva := ⟨0x10⟩,
                    flags := [], libobj := .libObj none "a.obj".data }]
    static_symbols := [{ symbol := "_g".data, addr := ⟨1, 0x20⟩, rva := ⟨0x20⟩,
                         flags := [], libobj := .absolute }] }

/-! ## Helper lemmas -/

set_option maxRecDepth 80000

theorem splitCh_ne_nil (c : Char) : ∀ l : List Char, splitCh c l ≠ []
  | [] => by simp [splitCh]
  | x :: xs => by
    unfold splitCh
    split
    · simp
    · cases h : splitCh c xs <;> simp

theorem splitCRLF_eq_single (s : List Char) (h : containsCRLF s = false) :
    splitCRLF s = [s] := by
  induction s using containsCRLF.induct with
  | case1 => rfl
  | case2 rest => simp [containsCRLF] at h
  | case3 x xs hne ih =>
    rw [containsCRLF] at h
    · rw [splitCRLF, ih h]
      · intro a b hab
        exact absurd hab (hne a b)
    · intro a b hab
      exact absurd hab (hne a b)

theorem list_ne_append_singleton {α : Type} (l : List α) (x : α) :
    l ++ [x] ≠ l := by
  intro h
  have := congrArg List.length h
  simp at this

theorem findCh_eq_none_iff (c : Char) : ∀ l : List Char, findCh c l = none ↔ c ∉ l
  | [] => by simp [findCh]
  | x :: xs => by
    unfold findCh
    constructor
    · intro h hmem
      split at h
      · exact absurd h (by simp)
      · rcases List.mem_cons.mp hmem with h1 | h2
        · simp_all
        · exact absurd ((findCh_eq_none_iff c xs).mp (by simpa using h)) (by simp [h2])
    · intro hmem
      simp only [List.mem_cons, not_or] at hmem
      rw [if_neg (fun hx => hmem.1 hx.symm)]
      simp [(findCh_eq_none_iff c xs).mpr hmem.2]

theorem findCh_append_cons (c : Char) :
    ∀ (pre rest : List Char), c ∉ pre →
      findCh c (pre ++ c :: rest) = some pre.length
  | [], rest, _ => by simp [findCh]
  | x :: xs, rest, h => by
    simp only [List.mem_cons, not_or] at h
    rw [List.cons_append, findCh, if_neg (fun hx => h.1 hx.symm),
      findCh_append_cons c xs rest h.2]
    simp

/-! ## Claim C8: CRLF-only line splitting -/

/-- C8: the scanner splits exclusively on the two-character CRLF sequence:
any input containing no CRLF is treated as one single line (line 1, the
file name), and `load` on it fails with "entrypoint not found" — in
particular an otherwise well-formed LF-only file does not parse into the
expected records. -/
theorem c8_crlf_only_splitting (s : List Char) (h : containsCRLF s = false) :
    splitCRLF s = [s] ∧ load s = .error .noEntrypoint := by
  refine ⟨splitCRLF_eq_single s h, ?_⟩
  rw [load, splitCRLF_eq_single s h]
  rfl

/-- Witness for C8 at the LF-only rendering of the worked example. -/
theorem c8_crlf_only_splitting_witness :
    containsCRLF exampleInputLF.data = false ∧
      (splitCRLF exampleInputLF.data = [exampleInputLF.data] ∧
        load exampleInputLF.data = .error .noEntrypoint) :=
  ⟨by decide, c8_crlf_only_splitting exampleInputLF.data (by decide)⟩

/-! ## Claim C3: the export-name sanitizer (code bug: `z` is missing) -/

/-- C3: the allowed-character string of `fix_name_for_ida` stops at `y`, so
the lowercase letter `z` is replaced by `_` even though it is in the
spec's allowed set — the full lowercase alphabet does not pass through. -/
theorem c3_sanitizer_drops_z :
    fix_name_for_ida "abcdefghijklmnopqrstuvwxyz".data
        = "abcdefghijklmnopqrstuvwxy_".data ∧
      fix_name_for_ida "z".data = "_".data ∧
      fix_name_for_ida "AZay09_$?@".data = "AZay09_$?@".data := by
  decide

/-! ## Claim C4: the data-line heuristic is `contains '0'`, not "any digit" -/

/-- C4 counterexample: the line `"1"` contains a decimal digit but no `'0'`
character, and the scanner does not classify it as a data line — in the
`Sections` stage it is skipped without producing a record. -/
theorem c4_digit_line_skipped :
    ("1".data.any Char.isDigit = true) ∧ isDataLine "1".data = false ∧
      stepLine sectionsSt 9 "1".data = .ok sectionsSt := by
  decide

/-- C4 (amended): in every stage other than `Header`, once the stage's
sentinel phrases are absent, a line is left unprocessed (same state, no
record, no error) exactly when it fails the `contains '0'` test. -/
theorem c4_data_line_test (st : St) (n : Nat) (data : List Char)
    (hst : st.stage ≠ .header)
    (hp : containsSub pubsByValue data = false)
    (he : containsSub entryPointAt data = false) :
    stepLine st n data = .ok st ↔ isDataLine data = false := by
  obtain ⟨stg, fn, ts, la, ep, secs, fns, ss⟩ := st
  cases stg with
  | header => simp at hst
  | sections =>
    simp only [stepLine, hp, Bool.false_eq_true, if_false]
    constructor
    · intro h
      by_cases hd : isDataLine data
      · rw [if_neg (by simp [hd])] at h
        cases hps : parseSecLine data with
        | error e => rw [hps] at h; exact absurd h (by simp)
        | ok sec =>
          rw [hps] at h
          simp only [Except.ok.injEq, St.mk.injEq] at h
          exact absurd h.2.2.2.2.2.1 (list_ne_append_singleton secs sec)
      · simp [hd]
    · intro h
      simp [h]
  | functions =>
    simp only [stepLine, he, Bool.false_eq_true, if_false]
    constructor
    · intro h
      by_cases hd : isDataLine data
      · rw [if_neg (by simp [hd])] at h
        cases hps : parseFnLine la data with
        | error e => rw [hps] at h; exact absurd h (by simp)
        | ok f =>
          rw [hps] at h
          simp only [Except.ok.injEq, St.mk.injEq] at h
          exact absurd h.2.2.2.2.2.2.1 (list_ne_append_singleton fns f)
      · simp [hd]
    · intro h
      simp [h]
  | staticSymbols =>
    simp only [stepLine]
    constructor
    · intro h
      by_cases hd : isDataLine data
      · rw [if_neg (by simp [hd])] at h
        cases hps : parseFnLine la data with
        | error e => rw [hps] at h; exact absurd h (by simp)
        | ok f =>
          rw [hps] at h
          simp only [Except.ok.injEq, St.mk.injEq] at h
          exact absurd h.2.2.2.2.2.2.2
            (list_ne_append_singleton ss
              { symbol := f.symbol, addr := f.addr, rva := f.rva,
                flags := f.flags, libobj := f.libobj })
      · simp [hd]
    · intro h
      simp [h]

/-- Witness for C4 (amended) at a concrete skipped line. -/
theorem c4_data_line_test_witness :
    stepLine sectionsSt 8 "column header".data = .ok sectionsSt ↔
      isDataLine "column header".data = false :=
  c4_data_line_test sectionsSt 8 "column header".data (by decide) (by decide)
    (by decide)

/-! ## Claim C1: the worked example (corrected: second export address) -/

/-- C1 counterexample: on the worked example the export pass emits
`268443648 _helper` (`0x10000000 + 0x2000`) as its second line, not the
claimed `268441600 _helper`. -/
theorem c1_example_export_differs :
    load exampleInput.data = .ok exampleMap ∧
      runExport exampleMap demNone = "268439552 _main\n268443648 _helper\n".data ∧
      "268439552 _main\n268443648 _helper\n".data ≠
        "268439552 _main\n268441600 _helper\n".data := by
  refine ⟨by decide, by decide, by decide⟩

/-- C1 (amended): the worked example parses to exactly one Section
(class CODE, length 0x100), one Function (`_main`, RVA 0x1000, flags
[`f`], libobj `libfoo`/`main.obj`), entry point segment 1 address 0x1000,
one StaticSymbol (`_helper`, RVA 0x2000, libobj `libfoo`/`helper.obj`);
and for any demangler that fails on `_main` and `_helper`, the export
pass emits `268439552 _main` then `268443648 _helper`. -/
theorem c1_worked_example :
    load exampleInput.data = .ok exampleMap ∧
      ∀ dem : List Char → Option (List Char),
        dem "_main".data = none → dem "_helper".data = none →
        runExport exampleMap dem = "268439552 _main\n268443648 _helper\n".data := by
  refine ⟨by decide, ?_⟩
  intro dem h1 h2
  have hrw : runExport exampleMap dem = runExport exampleMap demNone := by
    simp only [runExport, exampleMap, List.foldl_cons, List.foldl_nil, exportLine,
      h1, h2, demNone]
  rw [hrw]
  decide

/-- Witness for C1 (amended) at the always-failing demangler. -/
theorem c1_worked_example_witness :
    runExport exampleMap demNone = "268439552 _main\n268443648 _helper\n".data :=
  c1_worked_example.2 demNone rfl rfl

/-! ## Claim C9: export output shape, order and determinism -/

theorem foldl_append_flatten {α β : Type} (g : α → List β) :
    ∀ (l : List α) (init : List β),
      l.foldl (fun out x => out ++ g x) init = init ++ (l.map g).flatten
  | [], init => by simp
  | x :: xs, init => by
    simp [List.foldl_cons, foldl_append_flatten g xs, List.append_assoc]

/-- C9: the export pass's output is exactly one line per function (in input
order) followed by one line per static symbol (in input order), each of
the form `<rva + preferred_load_addr> <sanitized-name>\n` with the address
in decimal (`exportOutputSpec` restates the spec's wording); and export is
deterministic — two runs with the same demangler behaviour produce
byte-identical output. -/
theorem c9_export_order_deterministic (map : MapFile)
    (dem : List Char → Option (List Char)) :
    runExport map dem = exportOutputSpec map dem ∧
      ∀ dem2 : List Char → Option (List Char),
        (∀ s, dem s = dem2 s) → runExport map dem = runExport map dem2 := by
  constructor
  · rw [runExport, exportOutputSpec, foldl_append_flatten, foldl_append_flatten]
    simp
  · intro dem2 h
    rw [funext h]

/-- Witness for C9 at a concrete map and demangler. -/
theorem c9_export_order_deterministic_witness :
    runExport demoMap demNone = exportOutputSpec demoMap demNone ∧
      runExport demoMap demNone = runExport demoMap demNone :=
  ⟨(c9_export_order_deterministic demoMap demNone).1,
    (c9_export_order_deterministic demoMap demNone).2 demNone fun _ => rfl⟩

/-! ## Claim C7: timestamp extraction on header line 3 (corrected: the code
uses the FIRST closing parenthesis, not the last) -/

/-- C7 counterexample: on a line-3 text with two closing parentheses the
stored timestamp is `a` (sliced up to the first `)`), while the claim's
"text strictly between the first `(` and the character before the last
`)`" would be `ab) c`. -/
theorem c7_first_close_paren :
    headerLine3 {} "(ab) cd)".data = .ok { timestamp := some "a".data } ∧
      "a".data ≠ "ab) c".data := by
  refine ⟨by decide, by decide⟩

/-- C7 (amended): the stored timestamp is the text strictly between the
first `(` and the character before the FIRST `)` (the slice
`&data[begin + 1..end - 1]`), and the parse fails with the
missing-timestamp error if either parenthesis is absent.  The
decomposition hypotheses pin the two parentheses as the first of their
kind; `mid ≠ []` keeps the slice in bounds. -/
theorem c7_timestamp_extraction :
    (∀ (st : St) (pre mid post : List Char), mid ≠ [] →
      '(' ∉ pre → ')' ∉ pre → ')' ∉ mid →
      headerLine3 st (pre ++ '(' :: (mid ++ ')' :: post)) =
        .ok { st with timestamp := some mid.dropLast }) ∧
    (∀ (st : St) (data : List Char), '(' ∉ data ∨ ')' ∉ data →
      headerLine3 st data = .error .noTimestamp) := by
  constructor
  · intro st pre mid post hmid h1 h2 h3
    have hmlen : mid.length ≠ 0 := by simpa using hmid
    have hb : findCh '(' (pre ++ '(' :: (mid ++ ')' :: post)) = some pre.length :=
      findCh_append_cons '(' pre _ h1
    have he : findCh ')' (pre ++ '(' :: (mid ++ ')' :: post)) =
        some (pre.length + (mid.length + 1)) := by
      have hsplit : pre ++ '(' :: (mid ++ ')' :: post) =
          (pre ++ '(' :: mid) ++ ')' :: post := by simp
      have hnotin : ')' ∉ pre ++ '(' :: mid := by
        simp only [List.mem_append, List.mem_cons, not_or]
        exact ⟨h2, by decide, h3⟩
      rw [hsplit, findCh_append_cons ')' (pre ++ '(' :: mid) post hnotin]
      simp [Nat.add_comm]
    have hslice :
        (((pre ++ '(' :: (mid ++ ')' :: post)).take
            (pre.length + (mid.length + 1) - 1)).drop (pre.length + 1)) =
          mid.dropLast := by
      obtain ⟨k, hk⟩ : ∃ k, mid.length = k + 1 :=
        Nat.exists_eq_succ_of_ne_zero hmlen
      have harith : pre.length + (mid.length + 1) - 1 = pre.length + mid.length := by
        omega
      rw [harith, List.take_append, hk, List.take_succ_cons,
        List.take_append_of_le_length (by omega), List.append_cons,
        List.drop_left' (by simp), List.dropLast_eq_take, hk]
      simp
    simp only [headerLine3, hb, he]
    rw [if_neg (by omega), if_neg (by omega), hslice]
  · intro st data h
    rcases h with h | h
    · rw [headerLine3, (findCh_eq_none_iff '(' data).mpr h]
    · cases hb : findCh '(' data with
      | none => rw [headerLine3, hb]
      | some b => rw [headerLine3, hb, (findCh_eq_none_iff ')' data).mpr h]

/-- Witness for C7 (amended) at a concrete line-3 text. -/
theorem c7_timestamp_extraction_witness :
    headerLine3 {} "(ab)".data = .ok { timestamp := some "a".data } :=
  c7_timestamp_extraction.1 {} [] "ab".data [] (by decide) (by decide)
    (by decide) (by decide)

/-! ## Claim C6: tail-token classification in the function-line tokenizer -/

theorem tailFlags_cons_skip (t : List Char) (ts : List (List Char))
    (h : (!t.isEmpty && isFlagTok t) = false) : tailFlags (t :: ts) = tailFlags ts := by
  simp [tailFlags, List.filter_cons, h]

theorem tailFlags_cons_flag (t : List Char) (ts : List (List Char))
    (h : (!t.isEmpty && isFlagTok t) = true) :
    tailFlags (t :: ts) = t :: tailFlags ts := by
  simp [tailFlags, List.filter_cons, h]

theorem tailLibObj_cons_skip (lo : Option LibObject) (t : List Char)
    (ts : List (List Char)) (h : (!t.isEmpty && !isFlagTok t) = false) :
    tailLibObj lo (t :: ts) = tailLibObj lo ts := by
  simp [tailLibObj, List.filter_cons, h]

theorem tailLibObj_cons_nonflag (lo : Option LibObject) (t : List Char)
    (ts : List (List Char)) (h : (!t.isEmpty && !isFlagTok t) = true) :
    tailLibObj lo (t :: ts) = tailLibObj (some (classifyLib t)) ts := by
  simp only [tailLibObj, List.filter_cons, h, if_true, List.getLast?_cons]
  cases hl : (ts.filter fun u => !u.isEmpty && !isFlagTok u).getLast? with
  | none => simp
  | some u => simp

/-- Characterization of the token loop once it has reached the `LibObj`
stage: it never fails, appends exactly the single-character non-`<absolute>`
tokens to the flags in input order, and sets the provenance from the last
remaining token, classified by shape. -/
theorem foldFnToks_libObj (la : Option Nat) :
    ∀ (ts : List (List Char)) (acc : FnAcc), acc.fstage = .libObj →
      foldFnToks la acc ts =
        .ok { acc with
          flags := acc.flags ++ tailFlags ts
          libobj := tailLibObj acc.libobj ts }
  | [], acc, h => by
    simp [foldFnToks, tailFlags, tailLibObj]
  | t :: ts, acc, h => by
    rw [foldFnToks]
    by_cases hemp : t.isEmpty
    · rw [if_pos hemp, foldFnToks_libObj la ts acc h,
        tailFlags_cons_skip t ts (by simp [hemp]),
        tailLibObj_cons_skip acc.libobj t ts (by simp [hemp])]
    · rw [if_neg hemp]
      by_cases habs : containsSub absMarker t
      · have hstep : stepFnTok la acc t = .ok { acc with libobj := some .absolute } := by
          simp only [stepFnTok, h, habs, if_true]
        have hflag : isFlagTok t = false := by simp [isFlagTok, habs]
        simp only [hstep]
        rw [foldFnToks_libObj la ts { acc with libobj := some .absolute } h,
          tailFlags_cons_skip t ts (by simp [hflag]),
          tailLibObj_cons_nonflag acc.libobj t ts
            (by simp [hflag, Bool.not_eq_true] at hemp ⊢; simp [hemp]),
          show classifyLib t = .absolute by simp [classifyLib, habs]]
      · by_cases hlen : t.length = 1
        · have hstep : stepFnTok la acc t = .ok { acc with flags := acc.flags ++ [t] } := by
            simp [stepFnTok, h, habs, hlen]
          have hflag : isFlagTok t = true := by simp [isFlagTok, habs, hlen]
          simp only [hstep]
          rw [foldFnToks_libObj la ts { acc with flags := acc.flags ++ [t] } h,
            tailFlags_cons_flag t ts
              (by simp [hflag, Bool.not_eq_true] at hemp ⊢; simp [hemp]),
            tailLibObj_cons_skip acc.libobj t ts (by simp [hflag])]
          simp [List.append_assoc]
        · have hflag : isFlagTok t = false := by
            simp [isFlagTok, habs, hlen]
          rcases hsp : splitCh ':' t with _ | ⟨p0, _ | ⟨p1, prest⟩⟩
          · exact absurd hsp (splitCh_ne_nil ':' t)
          · have hstep : stepFnTok la acc t =
                .ok { acc with libobj := some (.libObj none p0) } := by
              simp [stepFnTok, h, habs, hlen, hsp]
            simp only [hstep]
            rw [foldFnToks_libObj la ts
                { acc with libobj := some (.libObj none p0) } h,
              tailFlags_cons_skip t ts (by simp [hflag]),
              tailLibObj_cons_nonflag acc.libobj t ts
                (by simp [hflag, Bool.not_eq_true] at hemp ⊢; simp [hemp]),
              show classifyLib t = .libObj none p0 by simp [classifyLib, habs, hsp]]
          · have hstep : stepFnTok la acc t =
                .ok { acc with libobj := some (.libObj (some p0) p1) } := by
              simp [stepFnTok, h, habs, hlen, hsp]
            simp only [hstep]
            rw [foldFnToks_libObj la ts
                { acc with libobj := some (.libObj (some p0) p1) } h,
              tailFlags_cons_skip t ts (by simp [hflag]),
              tailLibObj_cons_nonflag acc.libobj t ts
                (by simp [hflag, Bool.not_eq_true] at hemp ⊢; simp [hemp]),
              show classifyLib t = .libObj (some p0) p1 by
                simp [classifyLib, habs, hsp]]

/-- C6: each tail token after the RVA token is classified by shape — a token
containing `<absolute>` sets the provenance to `Absolute`; a length-1 token
is appended to the flags (so the whole tail contributes its single-character
tokens in input order); any other token is split on `:`, one part giving
`LibObj(None, part)` and two or more parts giving `LibObj(Some(first),
second)` with the rest ignored. -/
theorem c6_tail_token_classification :
    (∀ (la : Option Nat) (acc : FnAcc) (ts : List (List Char)),
      acc.fstage = .libObj →
      foldFnToks la acc ts =
        .ok { acc with
          flags := acc.flags ++ tailFlags ts
          libobj := tailLibObj acc.libobj ts }) ∧
    (∀ (la : Option Nat) (acc : FnAcc) (t : List Char), acc.fstage = .libObj →
      containsSub absMarker t = true →
      stepFnTok la acc t = .ok { acc with libobj := some .absolute }) ∧
    (∀ (la : Option Nat) (acc : FnAcc) (t : List Char), acc.fstage = .libObj →
      containsSub absMarker t = false → t.length = 1 →
      stepFnTok la acc t = .ok { acc with flags := acc.flags ++ [t] }) ∧
    (∀ (la : Option Nat) (acc : FnAcc) (t p : List Char), acc.fstage = .libObj →
      containsSub absMarker t = false → t.length ≠ 1 → splitCh ':' t = [p] →
      stepFnTok la acc t = .ok { acc with libobj := some (.libObj none p) }) ∧
    (∀ (la : Option Nat) (acc : FnAcc) (t p0 p1 : List Char)
      (prest : List (List Char)), acc.fstage = .libObj →
      containsSub absMarker t = false → t.length ≠ 1 →
      splitCh ':' t = p0 :: p1 :: prest →
      stepFnTok la acc t = .ok { acc with libobj := some (.libObj (some p0) p1) }) := by
  refine ⟨fun la acc ts h => foldFnToks_libObj la ts acc h, ?_, ?_, ?_, ?_⟩
  · intro la acc t h habs
    simp only [stepFnTok, h, habs, if_true]
  · intro la acc t h habs hlen
    simp [stepFnTok, h, habs, hlen]
  · intro la acc t p h habs hlen hsp
    simp [stepFnTok, h, habs, hlen, hsp]
  · intro la acc t p0 p1 prest h habs hlen hsp
    simp [stepFnTok, h, habs, hlen, hsp]

/-- Witness for C6 at a concrete tail (`f` flag, then `libfoo:main.obj`). -/
theorem c6_tail_token_classification_witness :
    foldFnToks none { fstage := .libObj } ["f".data, "libfoo:main.obj".data] =
      .ok { fstage := .libObj
            flags := [] ++ tailFlags ["f".data, "libfoo:main.obj".data]
            libobj := tailLibObj none ["f".data, "libfoo:main.obj".data] } :=
  c6_tail_token_classification.1 none { fstage := .libObj }
    ["f".data, "libfoo:main.obj".data] rfl

/-! ## Claim C2: the stored RVA of every parsed record -/

theorem foldFnToks_filter (la : Option Nat) :
    ∀ (ts : List (List Char)) (acc : FnAcc),
      foldFnToks la acc ts = foldFnToks la acc (ts.filter fun t => !t.isEmpty)
  | [], acc => rfl
  | t :: ts, acc => by
    by_cases hemp : t.isEmpty
    · rw [foldFnToks, if_pos hemp, List.filter_cons, if_neg (by simp [hemp])]
      exact foldFnToks_filter la ts acc
    · rw [List.filter_cons, if_pos (by simp [hemp])]
      rw [foldFnToks, if_neg hemp]
      conv_rhs => rw [foldFnToks, if_neg hemp]
      cases hstep : stepFnTok la acc t with
      | error e => rfl
      | ok acc2 => exact foldFnToks_filter la ts acc2

theorem tokensNE_not_empty {line t : List Char} (h : t ∈ tokensNE line) :
    t.isEmpty = false := by
  have := List.of_mem_filter h
  simpa using this

theorem stepFnTok_address (la : Option Nat) (acc : FnAcc) (t : List Char)
    (h : acc.fstage = .address) :
    (∃ e, stepFnTok la acc t = .error e) ∨
      ∃ A, stepFnTok la acc t = .ok { acc with address := some A, fstage := .symbol } := by
  simp only [stepFnTok, h]
  rcases hsp : splitCh ':' t with _ | ⟨seg, _ | ⟨addr, r⟩⟩
  · exact .inl ⟨.indexPanic, rfl⟩
  · exact .inl ⟨.indexPanic, rfl⟩
  · dsimp only
    cases hu : parseU16 seg with
    | none => exact .inl ⟨.badSegment, rfl⟩
    | some sv =>
      dsimp only
      cases ha : parseHex addr with
      | none => exact .inl ⟨.badAddress, rfl⟩
      | some av => exact .inr ⟨⟨sv, av⟩, rfl⟩

theorem stepFnTok_symbol (la : Option Nat) (acc : FnAcc) (t : List Char)
    (h : acc.fstage = .symbol) :
    stepFnTok la acc t = .ok { acc with symbol := some t, fstage := .rva } := by
  simp only [stepFnTok, h]

theorem stepFnTok_rva (la : Option Nat) (acc : FnAcc) (t : List Char)
    (h : acc.fstage = .rva) :
    (∃ e, stepFnTok la acc t = .error e) ∨
      ∃ raw v, parseHex t = some raw ∧ rvaValue la raw = .ok v ∧
        stepFnTok la acc t = .ok { acc with rva := some ⟨v⟩, fstage := .libObj } := by
  simp only [stepFnTok, h]
  cases hr : parseHex t with
  | none => exact .inl ⟨.badRva, rfl⟩
  | some raw =>
    dsimp only
    cases hv : rvaValue la raw with
    | error e => exact .inl ⟨e, rfl⟩
    | ok v => exact .inr ⟨raw, v, rfl, hv, rfl⟩

/-- C2: for every successfully parsed Functions/StaticSymbols record, the
raw hex value of the third non-empty token determines the stored RVA: a
raw value of 0 is stored as 0; otherwise, when the raw value is at least
the preferred load address (the format assumption), the stored RVA is
exactly the raw value minus the load address and the subtraction loses
nothing (`rva + load = raw`, so it did not underflow; as a `Nat` it is
non-negative by construction). -/
theorem c2_rva_invariant (la : Nat) (line : List Char) (f : Function)
    (h : parseFnLine (some la) line = .ok f) :
    ∃ tok raw, (tokensNE line)[2]? = some tok ∧ parseHex tok = some raw ∧
      (raw = 0 → f.rva.val = 0) ∧
      (raw ≠ 0 → la ≤ raw → f.rva.val = raw - la ∧ f.rva.val + la = raw) := by
  rw [parseFnLine, foldFnToks_filter] at h
  have htokeq : ((splitCh ' ' line).filter fun t => !t.isEmpty) = tokensNE line := rfl
  rw [htokeq] at h
  cases hts : tokensNE line with
  | nil => rw [hts] at h; simp [foldFnToks] at h
  | cons t0 ts0 =>
  have h0 : t0.isEmpty = false := tokensNE_not_empty (by rw [hts]; simp)
  rw [hts, foldFnToks, if_neg (by simp [h0])] at h
  rcases stepFnTok_address (some la) {} t0 rfl with ⟨e, hs0⟩ | ⟨A, hs0⟩
  · rw [hs0] at h; simp at h
  have hs0' : stepFnTok (some la) {} t0 = .ok ⟨.symbol, some A, none, none, [], none⟩ := hs0
  rw [hs0'] at h
  dsimp only at h
  cases hts0 : ts0 with
  | nil => rw [hts0] at h; simp [foldFnToks] at h
  | cons t1 ts1 =>
  have h1 : t1.isEmpty = false :=
    tokensNE_not_empty (t := t1) (by rw [hts, hts0]; simp)
  rw [hts0, foldFnToks, if_neg (by simp [h1])] at h
  have hs1 : stepFnTok (some la) ⟨.symbol, some A, none, none, [], none⟩ t1 =
      .ok ⟨.rva, some A, some t1, none, [], none⟩ :=
    stepFnTok_symbol (some la) _ t1 rfl
  rw [hs1] at h
  dsimp only at h
  cases hts1 : ts1 with
  | nil => rw [hts1] at h; simp [foldFnToks] at h
  | cons t2 rest =>
  have h2 : t2.isEmpty = false :=
    tokensNE_not_empty (t := t2) (by rw [hts, hts0, hts1]; simp)
  rw [hts1, foldFnToks, if_neg (by simp [h2])] at h
  rcases stepFnTok_rva (some la) ⟨.rva, some A, some t1, none, [], none⟩ t2 rfl with
    ⟨e, hs2⟩ | ⟨raw, v, hr, hv, hs2⟩
  · rw [hs2] at h; simp at h
  have hs2' : stepFnTok (some la) ⟨.rva, some A, some t1, none, [], none⟩ t2 =
      .ok ⟨.libObj, some A, some t1, some ⟨v⟩, [], none⟩ := hs2
  rw [hs2'] at h
  dsimp only at h
  rw [foldFnToks_libObj (some la) rest ⟨.libObj, some A, some t1, some ⟨v⟩, [], none⟩
    rfl] at h
  dsimp only at h
  cases hlo : tailLibObj none rest with
  | none => rw [hlo] at h; simp at h
  | some lo =>
  rw [hlo] at h
  dsimp only at h
  simp only [Except.ok.injEq] at h
  refine ⟨t2, raw, by simp, hr, ?_, ?_⟩
  · intro hraw
    rw [rvaValue, if_pos hraw] at hv
    simp only [Except.ok.injEq] at hv
    rw [← h]
    simp [← hv]
  · intro hraw hle
    rw [rvaValue, if_neg hraw, if_neg (by omega)] at hv
    simp only [Except.ok.injEq] at hv
    have hval : f.rva.val = raw - la := by rw [← h]; simp [← hv]
    exact ⟨hval, by rw [hval]; omega⟩

/-! ## Claim C5: malformed section class aborts the parse -/

theorem foldSecToks_filter :
    ∀ (ts : List (List Char)) (acc : SecAcc),
      foldSecToks acc ts = foldSecToks acc (ts.filter fun t => !t.isEmpty)
  | [], acc => rfl
  | t :: ts, acc => by
    by_cases hemp : t.isEmpty
    · rw [foldSecToks, if_pos hemp, List.filter_cons, if_neg (by simp [hemp])]
      exact foldSecToks_filter ts acc
    · rw [List.filter_cons, if_pos (by simp [hemp])]
      rw [foldSecToks, if_neg hemp]
      conv_rhs => rw [foldSecToks, if_neg hemp]
      cases hstep : stepSecTok acc t with
      | error e => rfl
      | ok acc2 => exact foldSecToks_filter ts acc2

theorem stepSecTok_address (acc : SecAcc) (t : List Char)
    (h : acc.sstage = .address) :
    (∃ e, stepSecTok acc t = .error e) ∨
      ∃ A, stepSecTok acc t = .ok { acc with address := some A, sstage := .length } := by
  simp only [stepSecTok, h]
  rcases hsp : splitCh ':' t with _ | ⟨seg, _ | ⟨addr, r⟩⟩
  · exact .inl ⟨.indexPanic, rfl⟩
  · exact .inl ⟨.indexPanic, rfl⟩
  · dsimp only
    cases hu : parseU16 seg with
    | none => exact .inl ⟨.badSegment, rfl⟩
    | some sv =>
      dsimp only
      cases ha : parseHex addr with
      | none => exact .inl ⟨.badAddress, rfl⟩
      | some av => exact .inr ⟨⟨sv, av⟩, rfl⟩

theorem stepSecTok_length (acc : SecAcc) (t : List Char)
    (h : acc.sstage = .length) :
    (∃ e, stepSecTok acc t = .error e) ∨
      ∃ v, stepSecTok acc t = .ok { acc with length := some v, sstage := .symbol } := by
  simp only [stepSecTok, h]
  cases hl : parseHex t.dropLast with
  | none => exact .inl ⟨.badLength, rfl⟩
  | some v => exact .inr ⟨v, rfl⟩

theorem stepSecTok_symbol (acc : SecAcc) (t : List Char)
    (h : acc.sstage = .symbol) :
    stepSecTok acc t = .ok { acc with symbol := some t, sstage := .cls } := by
  simp only [stepSecTok, h]

theorem stepSecTok_cls_bad (acc : SecAcc) (t : List Char)
    (h : acc.sstage = .cls) (hc : t ≠ "CODE".data) (hd : t ≠ "DATA".data) :
    stepSecTok acc t = .error .classPanic := by
  simp only [stepSecTok, h, hc, hd, if_false]

/-- C5: a Sections-stage data line whose fourth non-empty token is neither
`CODE` nor `DATA` makes the line parse fail (the `panic!` is modelled as
the `classPanic` error), a failing `load` never also returns a `MapFile`
(the parse has no partial-success mode), and on the worked example with a
`CONST` class row `load` fails with exactly the class panic. -/
theorem c5_class_rejection :
    (∀ (line t : List Char), (tokensNE line)[3]? = some t →
      t ≠ "CODE".data → t ≠ "DATA".data → ∃ e, parseSecLine line = .error e) ∧
    (∀ (input : List Char) (e : Err) (mf : MapFile),
      load input = .error e → load input ≠ .ok mf) ∧
    load exampleBadClass.data = .error .classPanic := by
  refine ⟨?_, ?_, by decide⟩
  · intro line t h3 hc hd
    have hfold : foldSecToks {} (splitCh ' ' line) = foldSecToks {} (tokensNE line) :=
      foldSecToks_filter (splitCh ' ' line) {}
    cases hts : tokensNE line with
    | nil => rw [hts] at h3; simp at h3
    | cons t0 ts0 =>
    have h0 : t0.isEmpty = false := tokensNE_not_empty (by rw [hts]; simp)
    rw [hts, foldSecToks, if_neg (by simp [h0])] at hfold
    rcases stepSecTok_address {} t0 rfl with ⟨e, hs0⟩ | ⟨A, hs0⟩
    · rw [hs0] at hfold
      exact ⟨e, by rw [parseSecLine, hfold]⟩
    have hs0' : stepSecTok {} t0 = .ok ⟨.length, some A, none, none, none⟩ := hs0
    rw [hs0'] at hfold
    dsimp only at hfold
    cases hts0 : ts0 with
    | nil => rw [hts, hts0] at h3; simp at h3
    | cons t1 ts1 =>
    have h1 : t1.isEmpty = false :=
      tokensNE_not_empty (t := t1) (by rw [hts, hts0]; simp)
    rw [hts0, foldSecToks, if_neg (by simp [h1])] at hfold
    rcases stepSecTok_length ⟨.length, some A, none, none, none⟩ t1 rfl with
      ⟨e, hs1⟩ | ⟨v, hs1⟩
    · rw [hs1] at hfold
      exact ⟨e, by rw [parseSecLine, hfold]⟩
    have hs1' : stepSecTok ⟨.length, some A, none, none, none⟩ t1 =
        .ok ⟨.symbol, some A, some v, none, none⟩ := hs1
    rw [hs1'] at hfold
    dsimp only at hfold
    cases hts1 : ts1 with
    | nil => rw [hts, hts0, hts1] at h3; simp at h3
    | cons t2 ts2 =>
    have h2 : t2.isEmpty = false :=
      tokensNE_not_empty (t := t2) (by rw [hts, hts0, hts1]; simp)
    rw [hts1, foldSecToks, if_neg (by simp [h2])] at hfold
    have hs2 : stepSecTok ⟨.symbol, some A, some v, none, none⟩ t2 =
        .ok ⟨.cls, some A, some v, some t2, none⟩ :=
      stepSecTok_symbol _ t2 rfl
    rw [hs2] at hfold
    dsimp only at hfold
    cases hts2 : ts2 with
    | nil => rw [hts, hts0, hts1, hts2] at h3; simp at h3
    | cons t3 rest =>
    have hteq : t3 = t := by
      rw [hts, hts0, hts1, hts2] at h3; simpa using h3
    subst hteq
    have h3e : t3.isEmpty = false :=
      tokensNE_not_empty (t := t3) (by rw [hts, hts0, hts1, hts2]; simp)
    rw [hts2, foldSecToks, if_neg (by simp [h3e])] at hfold
    rw [stepSecTok_cls_bad ⟨.cls, some A, some v, some t2, none⟩ t3 rfl hc hd] at hfold
    exact ⟨.classPanic, by rw [parseSecLine, hfold]⟩
  · intro input e mf h1 h2
    rw [h1] at h2
    exact absurd h2 (by simp)

/-- Witness for C5 at the `CONST` class token. -/
theorem c5_class_rejection_witness :
    (∃ e, parseSecLine "0001:00001000 00000100H .rdata CONST".data = .error e) ∧
      load exampleBadClass.data ≠ .ok exampleMap :=
  ⟨c5_class_rejection.1 "0001:00001000 00000100H .rdata CONST".data "CONST".data
      (by decide) (by decide) (by decide),
    c5_class_rejection.2.1 exampleBadClass.data .classPanic exampleMap
      c5_class_rejection.2.2⟩

/-- Witness for C2 at the worked example's Functions row. -/
theorem c2_rva_invariant_witness :
    ∃ tok raw,
      (tokensNE "0001:00001000 _main 10001000 f libfoo:main.obj".data)[2]? = some tok ∧
      parseHex tok = some raw ∧
      (raw = 0 → (4096 : Nat) = 0) ∧
      (raw ≠ 0 → 0x10000000 ≤ raw →
        (4096 : Nat) = raw - 0x10000000 ∧ 4096 + 0x10000000 = raw) :=
  c2_rva_invariant 0x10000000 "0001:00001000 _main 10001000 f libfoo:main.obj".data
    { symbol := "_main".data, addr := ⟨1, 0x1000⟩, rva := ⟨4096⟩,
      flags := ["f".data], libobj := .libObj (some "libfoo".data) "main.obj".data }
    (by decide)

/-! ## Claim C10: the load-address unwrap never panics -/

theorem headerLine3_ne_LAP (st : St) (data : List Char) :
    headerLine3 st data ≠ .error .loadAddrPanic := by
  intro h
  rw [headerLine3] at h
  repeat' split at h
  all_goals simp_all

theorem headerLine5_ne_LAP (st : St) (data : List Char) :
    headerLine5 st data ≠ .error .loadAddrPanic := by
  intro h
  rw [headerLine5] at h
  repeat' split at h
  all_goals simp_all

theorem stepSecTok_ne_LAP (acc : SecAcc) (t : List Char) :
    stepSecTok acc t ≠ .error .loadAddrPanic := by
  intro h
  rw [stepSecTok] at h
  repeat' split at h
  all_goals simp_all

theorem foldSecToks_ne_LAP : ∀ (ts : List (List Char)) (acc : SecAcc),
    foldSecToks acc ts ≠ .error .loadAddrPanic
  | [], acc => by simp [foldSecToks]
  | t :: ts, acc => by
    rw [foldSecToks]
    by_cases hemp : t.isEmpty
    · rw [if_pos hemp]; exact foldSecToks_ne_LAP ts acc
    · rw [if_neg hemp]
      cases hstep : stepSecTok acc t with
      | error e =>
        intro h
        simp only [Except.error.injEq] at h
        exact stepSecTok_ne_LAP acc t (by rw [hstep, h])
      | ok acc2 => exact foldSecToks_ne_LAP ts acc2

theorem parseSecLine_ne_LAP (line : List Char) :
    parseSecLine line ≠ .error .loadAddrPanic := by
  intro h
  rw [parseSecLine] at h
  split at h
  · rename_i e heq
    simp only [Except.error.injEq] at h
    subst h
    exact foldSecToks_ne_LAP _ _ heq
  · repeat' split at h
    all_goals simp_all

theorem rvaValue_some_ne_LAP (la : Nat) (raw : Nat) :
    rvaValue (some la) raw ≠ .error .loadAddrPanic := by
  intro h
  rw [rvaValue] at h
  repeat' split at h
  all_goals simp_all

theorem stepFnTok_some_ne_LAP (la : Nat) (acc : FnAcc) (t : List Char) :
    stepFnTok (some la) acc t ≠ .error .loadAddrPanic := by
  intro h
  rw [stepFnTok] at h
  split at h
  · repeat' split at h
    all_goals simp_all
  · simp_all
  · split at h
    · simp_all
    · split at h
      · rename_i e heq
        simp only [Except.error.injEq] at h
        subst h
        exact rvaValue_some_ne_LAP la _ heq
      · simp_all
  · repeat' split at h
    all_goals simp_all

theorem foldFnToks_some_ne_LAP (la : Nat) : ∀ (ts : List (List Char)) (acc : FnAcc),
    foldFnToks (some la) acc ts ≠ .error .loadAddrPanic
  | [], acc => by simp [foldFnToks]
  | t :: ts, acc => by
    rw [foldFnToks]
    by_cases hemp : t.isEmpty
    · rw [if_pos hemp]; exact foldFnToks_some_ne_LAP la ts acc
    · rw [if_neg hemp]
      cases hstep : stepFnTok (some la) acc t with
      | error e =>
        intro h
        simp only [Except.error.injEq] at h
        exact stepFnTok_some_ne_LAP la acc t (by rw [hstep, h])
      | ok acc2 => exact foldFnToks_some_ne_LAP la ts acc2

theorem parseFnLine_some_ne_LAP (la : Nat) (line : List Char) :
    parseFnLine (some la) line ≠ .error .loadAddrPanic := by
  intro h
  rw [parseFnLine] at h
  split at h
  · rename_i e heq
    simp only [Except.error.injEq] at h
    subst h
    exact foldFnToks_some_ne_LAP la _ _ heq
  · repeat' split at h
    all_goals simp_all

theorem foldEntryToks_ne_LAP : ∀ (ts : List (List Char)) (e0 : Option Address),
    foldEntryToks e0 ts ≠ .error .loadAddrPanic
  | [], e0 => by simp [foldEntryToks]
  | t :: ts, e0 => by
    rw [foldEntryToks]
    by_cases hemp : t.isEmpty
    · rw [if_pos hemp]; exact foldEntryToks_ne_LAP ts e0
    · rw [if_neg hemp]
      by_cases hz : t.contains '0'
      · rw [if_pos hz]
        rcases hsp : splitCh ':' t with _ | ⟨seg, _ | ⟨addr, r⟩⟩
        · simp
        · simp
        · dsimp only
          cases hu : parseU16 seg with
          | none => simp
          | some sv =>
            dsimp only
            cases ha : parseHex addr with
            | none => simp
            | some av => exact foldEntryToks_ne_LAP ts (some ⟨sv, av⟩)
      · rw [if_neg hz]; exact foldEntryToks_ne_LAP ts e0

theorem headerLine3_ok_shape (st st' : St) (d : List Char)
    (h : headerLine3 st d = .ok st') :
    st'.stage = st.stage ∧ st'.loadAddress = st.loadAddress := by
  rw [headerLine3] at h
  repeat' split at h
  all_goals simp_all
  exact ⟨(congrArg St.stage h.symm).trans rfl, (congrArg St.loadAddress h.symm).trans rfl⟩

theorem headerLine5_ok_shape (st st' : St) (d : List Char)
    (h : headerLine5 st d = .ok st') :
    st'.stage = st.stage ∧ st'.loadAddress.isSome = true := by
  rw [headerLine5] at h
  repeat' split at h
  all_goals simp_all
  subst h
  simp

theorem stepLine_ne_LAP (st : St) (n : Nat) (l : List Char) (hinv : stInv st n) :
    stepLine st n l ≠ .error .loadAddrPanic := by
  obtain ⟨stg, fn, ts, la, ep, secs, fns, ss⟩ := st
  intro h
  cases stg with
  | header =>
    simp only [stepLine] at h
    split at h
    · simp_all
    split at h
    · exact headerLine3_ne_LAP _ l h
    split at h
    · exact headerLine5_ne_LAP _ l h
    split at h
    · simp_all
    · simp_all
  | sections =>
    simp only [stepLine] at h
    split at h
    · simp_all
    split at h
    · simp_all
    · split at h
      · rename_i e heq
        simp only [Except.error.injEq] at h
        subst h
        exact parseSecLine_ne_LAP l heq
      · simp_all
  | functions =>
    have hla : la.isSome = true := hinv.2 (by simp)
    rcases Option.isSome_iff_exists.mp hla with ⟨lav, hlav⟩
    subst hlav
    simp only [stepLine] at h
    split at h
    · split at h
      · rename_i e heq
        simp only [Except.error.injEq] at h
        subst h
        exact foldEntryToks_ne_LAP _ _ heq
      · simp_all
    split at h
    · simp_all
    · split at h
      · rename_i e heq
        simp only [Except.error.injEq] at h
        subst h
        exact parseFnLine_some_ne_LAP lav l heq
      · simp_all
  | staticSymbols =>
    have hla : la.isSome = true := hinv.2 (by simp)
    rcases Option.isSome_iff_exists.mp hla with ⟨lav, hlav⟩
    subst hlav
    simp only [stepLine] at h
    split at h
    · simp_all
    · split at h
      · rename_i e heq
        simp only [Except.error.injEq] at h
        subst h
        exact parseFnLine_some_ne_LAP lav l heq
      · simp_all

theorem stepLine_inv (st st' : St) (n : Nat) (l : List Char) (hinv : stInv st n)
    (h : stepLine st n l = .ok st') : stInv st' (n + 1) := by
  obtain ⟨stg, fn, ts, la, ep, secs, fns, ss⟩ := st
  cases stg with
  | header =>
    obtain ⟨hle, hset⟩ := hinv.1 rfl
    simp only [stepLine] at h
    split at h
    · rename_i hn
      simp only [Except.ok.injEq] at h
      subst h
      exact ⟨fun _ => ⟨by omega, fun h6 => by omega⟩, fun habs => absurd rfl habs⟩
    split at h
    · rename_i hn1 hn
      obtain ⟨hstage, hla⟩ := headerLine3_ok_shape _ _ _ h
      exact ⟨fun _ => ⟨by omega, fun h6 => by omega⟩,
        fun habs => absurd (hstage.trans rfl) habs⟩
    split at h
    · rename_i hn1 hn3 hn
      obtain ⟨hstage, hla⟩ := headerLine5_ok_shape _ _ _ h
      exact ⟨fun _ => ⟨by omega, fun _ => hla⟩, fun _ => hla⟩
    split at h
    · rename_i hn1 hn3 hn5 hn
      simp only [Except.ok.injEq] at h
      subst h
      exact ⟨fun habs => absurd habs (by simp), fun _ => hset (by omega)⟩
    · rename_i hn1 hn3 hn5 hn7
      simp only [Except.ok.injEq] at h
      subst h
      exact ⟨fun _ => ⟨by omega, fun h6 => hset (by omega)⟩,
        fun habs => absurd rfl habs⟩
  | sections =>
    have hla : la.isSome = true := hinv.2 (by simp)
    simp only [stepLine] at h
    split at h
    · simp only [Except.ok.injEq] at h
      subst h
      exact ⟨fun habs => absurd habs (by simp), fun _ => hla⟩
    split at h
    · simp only [Except.ok.injEq] at h
      subst h
      exact ⟨fun habs => absurd habs (by simp), fun _ => hla⟩
    · split at h
      · simp_all
      · simp only [Except.ok.injEq] at h
        subst h
        exact ⟨fun habs => absurd habs (by simp), fun _ => hla⟩
  | functions =>
    have hla : la.isSome = true := hinv.2 (by simp)
    simp only [stepLine] at h
    split at h
    · split at h
      · simp_all
      · simp only [Except.ok.injEq] at h
        subst h
        exact ⟨fun habs => absurd habs (by simp), fun _ => hla⟩
    split at h
    · simp only [Except.ok.injEq] at h
      subst h
      exact ⟨fun habs => absurd habs (by simp), fun _ => hla⟩
    · split at h
      · simp_all
      · simp only [Except.ok.injEq] at h
        subst h
        exact ⟨fun habs => absurd habs (by simp), fun _ => hla⟩
  | staticSymbols =>
    have hla : la.isSome = true := hinv.2 (by simp)
    simp only [stepLine] at h
    split at h
    · simp only [Except.ok.injEq] at h
      subst h
      exact ⟨fun habs => absurd habs (by simp), fun _ => hla⟩
    · split at h
      · simp_all
      · simp only [Except.ok.injEq] at h
        subst h
        exact ⟨fun habs => absurd habs (by simp), fun _ => hla⟩

theorem runLines_ne_LAP : ∀ (ls : List (List Char)) (st : St) (n : Nat),
    stInv st n → runLines st n ls ≠ .error .loadAddrPanic
  | [], st, n, _ => by simp [runLines]
  | l :: ls, st, n, hinv => by
    rw [runLines]
    cases hstep : stepLine st n l with
    | error e =>
      intro h
      simp only [Except.error.injEq] at h
      subst h
      exact stepLine_ne_LAP st n l hinv hstep
    | ok st2 =>
      exact runLines_ne_LAP ls st2 (n + 1) (stepLine_inv st st2 n l hinv hstep)

theorem load_ne_LAP (input : List Char) : load input ≠ .error .loadAddrPanic := by
  intro h
  rw [load] at h
  split at h
  · rename_i e heq
    simp only [Except.error.injEq] at h
    subst h
    refine runLines_ne_LAP _ _ _ ?_ heq
    exact ⟨fun _ => ⟨by omega, fun h6 => by omega⟩, fun habs => absurd rfl habs⟩
  · repeat' split at h
    all_goals simp_all

/-- C10: whenever the scanner reaches the RVA computation of a
Functions/StaticSymbols data line, the preferred load address has already
been set (the only exit from the `Header` stage passes physical line 5,
which either sets it or aborts), so the `load_address.unwrap()` inside the
RVA computation never panics on any input. -/
theorem c10_load_addr_unwrap_safe (input : List Char) :
    hitsLoadAddrPanic input = false := by
  rw [hitsLoadAddrPanic]
  split
  · rename_i heq
    exact absurd heq (load_ne_LAP input)
  · rfl

end Mapparse
